import Mathlib

/-!
Verification development for a Polymarket 15-minute box-arbitrage bot.

This file shallowly embeds the order-management subsystem
(`order_manager.py`: the paper and live engines), the scanner's sizing
step (`fast_btc_15m_arb.py`), and the trade/cycle ledger
(`trade_logger.py`).  Prices, sizes and money are modelled as exact
rationals; Python `dict` tables keyed by order id are modelled as
insertion-ordered lists; network effects are modelled as explicit
outcome parameters; the async fill callback is modelled by returning
the list of fill notifications an operation emits.
-/

namespace PolyBot

/-- Side of a binary-outcome order (`OrderSide` in `order_manager.py`). -/
inductive OrderSide
  | YES
  | NO
deriving DecidableEq

/-- Order lifecycle status (`OrderStatus` in `order_manager.py`). -/
inductive OrderStatus
  | PENDING
  | OPEN
  | FILLED
  | PARTIALLY_FILLED
  | CANCELLED
  | REJECTED
deriving DecidableEq

/-- A limit order (`Order` dataclass).  The timestamp and token id play no
role in any claim and are omitted. -/
structure Order where
  id : String
  side : OrderSide
  price : ℚ
  size : ℚ
  status : OrderStatus
  filled_qty : ℚ
  filled_avg_price : ℚ
deriving DecidableEq

/-- `Order.is_active`: status is OPEN or PARTIALLY_FILLED. -/
def Order.is_active (o : Order) : Bool :=
  match o.status with
  | .OPEN => true
  | .PARTIALLY_FILLED => true
  | _ => false

/-- An order-book snapshot (`OrderBook` dataclass): bid and ask ladders as
(price, size) pairs. -/
structure OrderBook where
  bids : List (ℚ × ℚ)
  asks : List (ℚ × ℚ)
deriving DecidableEq

/-- `OrderBook.best_bid`: price of the first bid, if any. -/
def OrderBook.best_bid (b : OrderBook) : Option ℚ :=
  b.bids.head?.map Prod.fst

/-- `OrderBook.best_ask`: price of the first ask, if any. -/
def OrderBook.best_ask (b : OrderBook) : Option ℚ :=
  b.asks.head?.map Prod.fst

/-- Python truthiness of `book.best_ask` as used in
`if book.best_ask and ...`: both `None` and `0.0` are falsy. -/
def OrderBook.truthy_best_ask (b : OrderBook) : Option ℚ :=
  match b.best_ask with
  | none => none
  | some a => if a = 0 then none else some a

/-- One fill notification delivered to the registered fill callback
(`_notify_fill(side, price, qty)`). -/
structure Fill where
  side : OrderSide
  price : ℚ
  qty : ℚ
deriving DecidableEq

/-- Sorting relation for bids: earlier entries have the larger price
(`bids.sort(key=lambda x: x[0], reverse=True)`, a stable sort). -/
def bidLe (a b : ℚ × ℚ) : Prop := b.1 ≤ a.1

/-- Sorting relation for asks: earlier entries have the smaller price
(`asks.sort(key=lambda x: x[0])`, a stable sort). -/
def askLe (a b : ℚ × ℚ) : Prop := a.1 ≤ b.1

instance : DecidableRel bidLe := fun a b => inferInstanceAs (Decidable (b.1 ≤ a.1))

instance : DecidableRel askLe := fun a b => inferInstanceAs (Decidable (a.1 ≤ b.1))

instance : IsTotal (ℚ × ℚ) bidLe := ⟨fun a b => le_total b.1 a.1⟩

instance : IsTrans (ℚ × ℚ) bidLe := ⟨fun _ _ _ h1 h2 => le_trans h2 h1⟩

instance : IsTotal (ℚ × ℚ) askLe := ⟨fun a b => le_total a.1 b.1⟩

instance : IsTrans (ℚ × ℚ) askLe := ⟨fun _ _ _ h1 h2 => le_trans h1 h2⟩

/-- Stable descending-by-price sort used on bid ladders. -/
def sortBids (l : List (ℚ × ℚ)) : List (ℚ × ℚ) := List.insertionSort bidLe l

/-- Stable ascending-by-price sort used on ask ladders. -/
def sortAsks (l : List (ℚ × ℚ)) : List (ℚ × ℚ) := List.insertionSort askLe l

namespace Paper

/-- One raw price level of the venue's `/book` JSON payload, after the
`float(...)` conversions (missing fields default to 0). -/
structure RawLevel where
  price : ℚ
  size : ℚ
deriving DecidableEq

/-- Outcome of the network fetch inside
`PaperOrderManager._fetch_live_order_book`: either an HTTP response with
status code and parsed bid/ask arrays, or any failure (timeout, exception,
malformed payload), which the function's `except` clauses swallow. -/
inductive FetchOutcome
  | ok (status : Nat) (bids asks : List RawLevel)
  | failure
deriving DecidableEq

/-- The level-parsing loop of `_fetch_live_order_book`: keep `(price, size)`
exactly when `price > 0 and size > 0`. -/
def parseLevels (levels : List RawLevel) : List (ℚ × ℚ) :=
  (levels.filter (fun l => decide (0 < l.price) && decide (0 < l.size))).map
    (fun l => (l.price, l.size))

/-- The fallback book `OrderBook(bids=[(0.50, 100)], asks=[(0.52, 100)])`. -/
def default_book : OrderBook :=
  { bids := [(1/2, 100)], asks := [(52/100, 100)] }

/-- `PaperOrderManager._fetch_live_order_book`: on a 200 response, filter
non-positive levels, sort bids descending and asks ascending, and return the
book if at least one side is non-empty; in every other case (non-200,
exception, or both parsed sides empty) return the default book. -/
def fetch_live_order_book (res : FetchOutcome) : OrderBook :=
  match res with
  | .ok status rawBids rawAsks =>
      if status = 200 then
        let bids := sortBids (parseLevels rawBids)
        let asks := sortAsks (parseLevels rawAsks)
        if bids ≠ [] ∨ asks ≠ [] then { bids := bids, asks := asks } else default_book
      else default_book
  | .failure => default_book

/-- The final lookup of `PaperOrderManager.get_order_book`:
`self._cached_books.get(side, OrderBook(bids=[(0.50, 100)], asks=[(0.52, 100)]))`. -/
def get_order_book (cached : OrderSide → Option OrderBook) (side : OrderSide) : OrderBook :=
  match cached side with
  | some b => b
  | none => default_book

/-- `PaperOrderManager.place_limit_buy` in realistic mode: register an OPEN
order; if the book's best ask is truthy and `price >= best_ask`, fill it
immediately at the ask and notify the fill callback.  Returns the order as
returned to the caller, the updated order table, and the emitted fills. -/
def place_limit_buy (orders : List Order) (book : OrderBook) (newId : String)
    (side : OrderSide) (price size : ℚ) : Order × List Order × List Fill :=
  let o : Order :=
    { id := newId, side := side, price := price, size := size,
      status := .OPEN, filled_qty := 0, filled_avg_price := 0 }
  match book.truthy_best_ask with
  | some a =>
      if price ≥ a then
        let o' : Order :=
          { o with status := .FILLED, filled_qty := size, filled_avg_price := a }
        (o', orders ++ [o'], [⟨side, a, size⟩])
      else (o, orders ++ [o], [])
  | none => (o, orders ++ [o], [])

/-- The per-order body of `PaperOrderManager.check_pending_fills`: an OPEN
order fills at the current best ask exactly when that ask is truthy and
`best_ask <= order.price`. -/
def check_order_fill (books : OrderSide → OrderBook) (o : Order) : Order × List Fill :=
  if o.status = .OPEN then
    match (books o.side).truthy_best_ask with
    | some a =>
        if a ≤ o.price then
          ({ o with status := .FILLED, filled_qty := o.size, filled_avg_price := a },
           [⟨o.side, a, o.size⟩])
        else (o, [])
    | none => (o, [])
  else (o, [])

/-- `PaperOrderManager.check_pending_fills`: scan the whole table; the
returned fill count is the length of the emitted fill list. -/
def check_pending_fills (books : OrderSide → OrderBook) (orders : List Order) :
    List Order × List Fill :=
  (orders.map (fun o => (check_order_fill books o).1),
   (orders.map (fun o => (check_order_fill books o).2)).flatten)

/-- `PaperOrderManager.market_buy`: fill instantly at the truthy best ask, or
at the sentinel price `0.55` when there is none; always FILLED, always
notifies. -/
def market_buy (orders : List Order) (book : OrderBook) (newId : String)
    (side : OrderSide) (size : ℚ) : Order × List Order × List Fill :=
  let fill_price : ℚ :=
    match book.truthy_best_ask with
    | some a => a
    | none => 55/100
  let o : Order :=
    { id := newId, side := side, price := fill_price, size := size,
      status := .FILLED, filled_qty := size, filled_avg_price := fill_price }
  (o, orders ++ [o], [⟨side, fill_price, size⟩])

/-- `PaperOrderManager.cancel_all_orders`: set every active order to
CANCELLED and return how many were cancelled. -/
def cancel_all_orders (orders : List Order) : List Order × Nat :=
  (orders.map (fun o => if o.is_active then { o with status := .CANCELLED } else o),
   (orders.filter (fun o => o.is_active)).length)

end Paper

namespace Live

/-- One raw level of a `py-clob-client` book summary as seen by
`LiveOrderManager._normalize_order_book_summary.to_levels`: either it
converts to a `(price, size)` float pair (object style, or dict style where
missing keys default to 0), or both conversion attempts fail and the level
is skipped. -/
inductive RawSummaryLevel
  | valid (price size : ℚ)
  | invalid
deriving DecidableEq

/-- The `to_levels` helper: keep the converted pairs, in order, skipping
unconvertible levels.  No positivity filtering happens here. -/
def to_levels (levels : List RawSummaryLevel) : List (ℚ × ℚ) :=
  levels.filterMap (fun l =>
    match l with
    | .valid p s => some (p, s)
    | .invalid => none)

/-- `LiveOrderManager._normalize_order_book_summary`: `None` becomes the
empty book; otherwise convert both sides with `to_levels` and sort bids
descending, asks ascending. -/
def normalize_order_book_summary
    (raw : Option (List RawSummaryLevel × List RawSummaryLevel)) : OrderBook :=
  match raw with
  | none => { bids := [], asks := [] }
  | some (rawBids, rawAsks) =>
      { bids := sortBids (to_levels rawBids), asks := sortAsks (to_levels rawAsks) }

/-- Outcome of the live engine's `client.get_order_book` call: a raw summary
(possibly `None`), or an exception. -/
inductive BookFetchOutcome
  | ok (raw : Option (List RawSummaryLevel × List RawSummaryLevel))
  | failure
deriving DecidableEq

/-- `LiveOrderManager.get_order_book`: normalize the client's response; on
any exception return the empty book. -/
def get_order_book (res : BookFetchOutcome) : OrderBook :=
  match res with
  | .ok raw => normalize_order_book_summary raw
  | .failure => { bids := [], asks := [] }

/-- `LiveOrderManager.place_limit_buy`: post the order through the client;
on success register and return an OPEN order carrying the extracted (or
generated) id; on client failure re-raise.  `postResult` is the outcome of
`create_and_post_order` reduced to the id the code extracts. -/
def place_limit_buy (orders : List Order) (side : OrderSide) (price size : ℚ)
    (postResult : Except Unit String) : Except Unit (Order × List Order) :=
  match postResult with
  | .error e => .error e
  | .ok oid =>
      let o : Order :=
        { id := oid, side := side, price := price, size := size,
          status := .OPEN, filled_qty := 0, filled_avg_price := 0 }
      .ok (o, orders ++ [o])

/-- `LiveOrderManager.market_buy`: raise when the book has no (truthy) best
ask; otherwise place a limit buy at the best ask. -/
def market_buy (orders : List Order) (book : OrderBook) (side : OrderSide)
    (size : ℚ) (postResult : Except Unit String) : Except Unit (Order × List Order) :=
  match book.truthy_best_ask with
  | none => .error ()
  | some a => place_limit_buy orders side a size postResult

/-- `LiveOrderManager.cancel_order`: ask the client to cancel (`apiOk` gives
the call's outcome per order id); on success mark the tracked order
CANCELLED and return true, on exception return false with no state change. -/
def cancel_order (apiOk : String → Bool) (orders : List Order) (oid : String) :
    Bool × List Order :=
  if apiOk oid then
    (true, orders.map (fun x => if x.id = oid then { x with status := .CANCELLED } else x))
  else (false, orders)

/-- One step of the `cancel_all_orders` sweep over the snapshot of order
values: skip inactive snapshot entries, otherwise attempt the cancel and
count it when it succeeded. -/
def sweepStep (apiOk : String → Bool) (acc : List Order × Nat) (o : Order) :
    List Order × Nat :=
  if o.is_active then
    let r := cancel_order apiOk acc.1 o.id
    (r.2, acc.2 + if r.1 then 1 else 0)
  else acc

/-- `LiveOrderManager.cancel_all_orders`: iterate over a snapshot of the
current order values, cancelling each still-active one best-effort. -/
def cancel_all_orders (apiOk : String → Bool) (orders : List Order) :
    List Order × Nat :=
  orders.foldl (sweepStep apiOk) (orders, 0)

/-- Outcome of `client.get_order(order_id)` as consumed by
`refresh_order_status`: an exception, a dict payload (status string plus the
coalesced filled-size and average-fill-price numbers, 0 when missing or
garbled), or a non-dict payload. -/
inductive ApiOrderResult
  | exc
  | dict (status : String) (filled_size avg_fill_price : ℚ)
  | nondict
deriving DecidableEq

/-- The `status_map.get(...)` lookup: unknown strings keep the current
status. -/
def statusLookup (s : String) (cur : OrderStatus) : OrderStatus :=
  if s = "open" then .OPEN
  else if s = "filled" then .FILLED
  else if s = "cancelled" then .CANCELLED
  else cur

/-- The body of `refresh_order_status` for a tracked order: update status
and fill fields from the response, then notify the callback whenever the
resulting status is FILLED with positive filled quantity.  A non-dict
response leaves the fill fields unchanged and looks the status up with the
empty string. -/
def refresh_one (o : Order) (r : ApiOrderResult) : Order × List Fill :=
  match r with
  | .exc => (o, [])
  | .dict s fs afp =>
      let o1 : Order :=
        { o with status := statusLookup s o.status, filled_qty := fs,
                 filled_avg_price := afp }
      if o1.status = .FILLED ∧ 0 < o1.filled_qty then
        (o1, [⟨o1.side, o1.filled_avg_price, o1.filled_qty⟩])
      else (o1, [])
  | .nondict =>
      let o1 : Order := { o with status := statusLookup "" o.status }
      if o1.status = .FILLED ∧ 0 < o1.filled_qty then
        (o1, [⟨o1.side, o1.filled_avg_price, o1.filled_qty⟩])
      else (o1, [])

/-- `LiveOrderManager.refresh_order_status`: on exception, or when the id is
not tracked, the table is unchanged and nothing is notified; otherwise the
tracked order is updated via `refresh_one`. -/
def refresh_order_status (orders : List Order) (oid : String)
    (r : ApiOrderResult) : List Order × List Fill :=
  match r with
  | .exc => (orders, [])
  | r =>
      match orders.find? (fun o => decide (o.id = oid)) with
      | none => (orders, [])
      | some o =>
          let u := refresh_one o r
          (orders.map (fun x => if x.id = oid then u.1 else x), u.2)

/-- The loop body of one `poll_for_fills` pass: look the id up in the
current table (`self.orders.get(order_id)`); only an order that still
exists and is still active gets refreshed. -/
def pollStep (resp : String → ApiOrderResult) (acc : List Order × List Fill)
    (oid : String) : List Order × List Fill :=
  match acc.1.find? (fun o => decide (o.id = oid)) with
  | some o =>
      if o.is_active then
        let r := refresh_order_status acc.1 oid (resp oid)
        (r.1, acc.2 ++ r.2)
      else acc
  | none => acc

/-- One pass of `LiveOrderManager.poll_for_fills`: walk a snapshot of the
tracked order ids; refresh each order that still exists and is still
active.  `resp` gives the venue's response per order id. -/
def poll_pass (orders : List Order) (resp : String → ApiOrderResult) :
    List Order × List Fill :=
  (orders.map Order.id).foldl (pollStep resp) (orders, [])

end Live

namespace Scanner

/-- The scanner parameters relevant to sizing (`FastArbParams`). -/
structure FastArbParams where
  min_edge : ℚ
  usd_per_attempt : ℚ
deriving DecidableEq

/-- The edge-check and sizing step of one `run_fast_box_arb` loop iteration,
given both legs' top-of-book `(price, size)`: skip (`none`) when
`edge < min_edge`; otherwise `q = usd_per_attempt / max(1e-9, p_sum)` capped
by both available sizes, skipping when the result is `<= 0`. -/
def sizeAttempt (params : FastArbParams) (p_up s_up p_down s_down : ℚ) : Option ℚ :=
  let p_sum := p_up + p_down
  let edge := 1 - p_sum
  if edge < params.min_edge then none
  else
    let q0 := params.usd_per_attempt / max (1/1000000000) p_sum
    let q := min (min q0 s_up) s_down
    if q ≤ 0 then none else some q

/-- The quantity formula as the claim states it: target notional divided by
the combined ask, capped by both top-of-book sizes (no 1e-9 guard).  Stated
from the claim's words, for comparison with `sizeAttempt`. -/
def claimedQty (params : FastArbParams) (p_up s_up p_down s_down : ℚ) : ℚ :=
  min (min (params.usd_per_attempt / (p_up + p_down)) s_up) s_down

end Scanner

namespace Ledger

/-- A wall-clock instant: its ISO string (as produced by `isoformat()` and
parsed back by `fromisoformat`, a lossless round trip) and its epoch value
in seconds, used for duration arithmetic. -/
structure Time where
  iso : String
  epoch : ℚ
deriving DecidableEq

/-- `TradeRecord` dataclass: one immutable fill fact. -/
structure TradeRecord where
  timestamp : String
  market_slug : String
  asset : String
  side : String
  action : String
  price : ℚ
  quantity : ℚ
  value : ℚ
  state : String
deriving DecidableEq

/-- `CycleRecord` dataclass: one arbitrage cycle. -/
structure CycleRecord where
  cycle_id : String
  market_slug : String
  asset : String
  start_time : String
  end_time : Option String
  up_entry_price : Option ℚ
  up_entry_qty : Option ℚ
  down_entry_price : Option ℚ
  down_entry_qty : Option ℚ
  total_cost : ℚ
  locked_profit : ℚ
  status : String
deriving DecidableEq

/-- `PerformanceStats` dataclass. -/
structure PerformanceStats where
  total_trades : Nat
  total_cycles : Nat
  completed_cycles : Nat
  locked_cycles : Nat
  stopped_cycles : Nat
  expired_cycles : Nat
  gross_profit : ℚ
  gross_loss : ℚ
  net_pnl : ℚ
  win_rate : ℚ
  avg_profit_per_cycle : ℚ
  start_time : String
  end_time : String
  duration_hours : ℚ
deriving DecidableEq

/-- The in-memory state of a `TradeLogger`. -/
structure LedgerState where
  session_name : String
  session_start : Time
  trades : List TradeRecord
  cycles : List CycleRecord
  current_cycle : Option CycleRecord
deriving DecidableEq

/-- The loop body of `TradeLogger.get_stats` over one closed cycle: a LOCKED
cycle counts as locked and completed and books its profit (or the absolute
value of a non-positive profit as loss); a STOPPED cycle counts as stopped
and completed and books half its total cost as loss when that cost is
positive; an EXPIRED cycle only counts as expired. -/
def statsStep (s : PerformanceStats) (c : CycleRecord) : PerformanceStats :=
  if c.status = "LOCKED" then
    { s with locked_cycles := s.locked_cycles + 1,
             completed_cycles := s.completed_cycles + 1,
             gross_profit :=
               if 0 < c.locked_profit then s.gross_profit + c.locked_profit
               else s.gross_profit,
             gross_loss :=
               if 0 < c.locked_profit then s.gross_loss
               else s.gross_loss + |c.locked_profit| }
  else if c.status = "STOPPED" then
    { s with stopped_cycles := s.stopped_cycles + 1,
             completed_cycles := s.completed_cycles + 1,
             gross_loss :=
               if 0 < c.total_cost then s.gross_loss + c.total_cost * (1/2)
               else s.gross_loss }
  else if c.status = "EXPIRED" then
    { s with expired_cycles := s.expired_cycles + 1 }
  else s

/-- The zero-initialized `PerformanceStats()` the loop starts from, with the
trade and cycle counts already set. -/
def initStats (nTrades nCycles : Nat) : PerformanceStats :=
  { total_trades := nTrades, total_cycles := nCycles,
    completed_cycles := 0, locked_cycles := 0, stopped_cycles := 0,
    expired_cycles := 0, gross_profit := 0, gross_loss := 0, net_pnl := 0,
    win_rate := 0, avg_profit_per_cycle := 0, start_time := "", end_time := "",
    duration_hours := 0 }

/-- `TradeLogger.get_stats`, evaluated at instant `now`: fold the loop over
the closed cycles, then derive net PnL, win rate, average profit, and the
session timing fields. -/
def get_stats (st : LedgerState) (now : Time) : PerformanceStats :=
  let base := st.cycles.foldl statsStep (initStats st.trades.length st.cycles.length)
  let net := base.gross_profit - base.gross_loss
  { base with
      net_pnl := net,
      win_rate :=
        if 0 < base.completed_cycles then
          (base.locked_cycles : ℚ) / (base.completed_cycles : ℚ)
        else 0,
      avg_profit_per_cycle :=
        if 0 < base.completed_cycles then net / (base.completed_cycles : ℚ)
        else 0,
      start_time := st.session_start.iso,
      end_time := now.iso,
      duration_hours := (now.epoch - st.session_start.epoch) / 3600 }

/-- `TradeLogger.complete_cycle`: with no current cycle this is a no-op;
otherwise stamp the end time, status and locked profit, move the cycle into
the closed collection, and clear the current pointer. -/
def complete_cycle (st : LedgerState) (now : Time) (status : String)
    (locked_profit : ℚ) : LedgerState :=
  match st.current_cycle with
  | none => st
  | some c =>
      let c' : CycleRecord :=
        { c with end_time := some now.iso, status := status,
                 locked_profit := locked_profit }
      { st with cycles := st.cycles ++ [c'], current_cycle := none }

/-- The JSON session file written by `TradeLogger._save`.  Python's JSON
encoding of the dataclass dicts round-trips every field exactly (strings
verbatim, floats by exact shortest-repr round trip), so the trade and cycle
collections are carried as-is. -/
structure SessionData where
  session_name : String
  session_start : Time
  session_end : Time
  trades : List TradeRecord
  cycles : List CycleRecord
  stats : PerformanceStats
deriving DecidableEq

/-- `TradeLogger._save` at instant `now`. -/
def save_session (st : LedgerState) (now : Time) : SessionData :=
  { session_name := st.session_name, session_start := st.session_start,
    session_end := now, trades := st.trades, cycles := st.cycles,
    stats := get_stats st now }

/-- Constructing a new `TradeLogger` on an existing session file
(`__init__` followed by `_load`): trades, cycles and the session start come
from the file; the current-cycle pointer starts empty. -/
def load_session (d : SessionData) (name : String) : LedgerState :=
  { session_name := name, session_start := d.session_start,
    trades := d.trades, cycles := d.cycles, current_cycle := none }

end Ledger

/-! ## Supporting lemmas -/

theorem truthy_best_ask_of_pos {b : OrderBook} {a : ℚ} (h : b.best_ask = some a)
    (ha : 0 < a) : b.truthy_best_ask = some a := by
  simp [OrderBook.truthy_best_ask, h, ne_of_gt ha]

theorem check_pending_fills_split (books : OrderSide → OrderBook)
    (pre post : List Order) (o : Order) :
    Paper.check_pending_fills books (pre ++ o :: post) =
      ((Paper.check_pending_fills books pre).1 ++
        (Paper.check_order_fill books o).1 :: (Paper.check_pending_fills books post).1,
       (Paper.check_pending_fills books pre).2 ++
        (Paper.check_order_fill books o).2 ++ (Paper.check_pending_fills books post).2) := by
  simp [Paper.check_pending_fills]

/-! ## C1: paper-engine realistic fill policy -/

/-- C1: in the paper engine's realistic mode, a limit buy whose price is at
or above the book's (positive) best ask is returned FILLED for the full size
at that ask with a fill notification; one whose price is below the best ask
is returned OPEN with no notification, and a later `check_pending_fills`
pass fills it — at the then-current best ask, for the full size, with a
notification — exactly when that observed best ask is at or below its limit
price. -/
theorem C1_paper_realistic_fill_policy
    (orders : List Order) (book : OrderBook) (newId : String) (side : OrderSide)
    (price size a : ℚ) (h : book.best_ask = some a) (ha : 0 < a) :
    (a ≤ price →
      ((Paper.place_limit_buy orders book newId side price size).1.status = .FILLED ∧
       (Paper.place_limit_buy orders book newId side price size).1.filled_qty = size ∧
       (Paper.place_limit_buy orders book newId side price size).1.filled_avg_price = a ∧
       (Paper.place_limit_buy orders book newId side price size).2.2 = [⟨side, a, size⟩])) ∧
    (price < a →
      ((Paper.place_limit_buy orders book newId side price size).1.status = .OPEN ∧
       (Paper.place_limit_buy orders book newId side price size).2.2 = [] ∧
       ∀ (books : OrderSide → OrderBook) (a' : ℚ),
         (books side).best_ask = some a' → 0 < a' →
         (∀ pre post : List Order,
           Paper.check_pending_fills books
               (pre ++ (Paper.place_limit_buy orders book newId side price size).1 :: post) =
             ((Paper.check_pending_fills books pre).1 ++
               (Paper.check_order_fill books
                 (Paper.place_limit_buy orders book newId side price size).1).1 ::
               (Paper.check_pending_fills books post).1,
              (Paper.check_pending_fills books pre).2 ++
               (Paper.check_order_fill books
                 (Paper.place_limit_buy orders book newId side price size).1).2 ++
               (Paper.check_pending_fills books post).2)) ∧
         (a' ≤ price →
           ((Paper.check_order_fill books
               (Paper.place_limit_buy orders book newId side price size).1).1.status = .FILLED ∧
            (Paper.check_order_fill books
               (Paper.place_limit_buy orders book newId side price size).1).1.filled_qty = size ∧
            (Paper.check_order_fill books
               (Paper.place_limit_buy orders book newId side price size).1).1.filled_avg_price = a' ∧
            (Paper.check_order_fill books
               (Paper.place_limit_buy orders book newId side price size).1).2 =
              [⟨side, a', size⟩])) ∧
         (price < a' →
           Paper.check_order_fill books
               (Paper.place_limit_buy orders book newId side price size).1 =
             ((Paper.place_limit_buy orders book newId side price size).1, [])))) := by
  have ht := truthy_best_ask_of_pos h ha
  constructor
  · intro hle
    simp [Paper.place_limit_buy, ht, le_of_lt, hle]
  · intro hlt
    have hnge : ¬ price ≥ a := not_le.mpr hlt
    refine ⟨by simp [Paper.place_limit_buy, ht, hnge], by simp [Paper.place_limit_buy, ht, hnge], ?_⟩
    intro books a' h' ha'
    have ht' := truthy_best_ask_of_pos h' ha'
    refine ⟨fun pre post => check_pending_fills_split books pre post _, ?_, ?_⟩
    · intro hcross
      simp [Paper.place_limit_buy, ht, hnge, Paper.check_order_fill, ht', hcross]
    · intro hnocross
      have : ¬ a' ≤ price := not_le.mpr hnocross
      simp [Paper.place_limit_buy, ht, hnge, Paper.check_order_fill, ht', this]

/-- Witness for C1 at a concrete input: book with best ask 1, resting price
3 ≥ 1 on one branch hypothesis side. -/
theorem C1_paper_realistic_fill_policy_witness :
    (OrderBook.mk [] [((1 : ℚ), 5)]).best_ask = some 1 ∧ (0 : ℚ) < 1 ∧
    ((1 : ℚ) ≤ 3 →
      ((Paper.place_limit_buy [] (OrderBook.mk [] [(1, 5)]) "p1" .YES 3 2).1.status = .FILLED ∧
       (Paper.place_limit_buy [] (OrderBook.mk [] [(1, 5)]) "p1" .YES 3 2).1.filled_qty = 2 ∧
       (Paper.place_limit_buy [] (OrderBook.mk [] [(1, 5)]) "p1" .YES 3 2).1.filled_avg_price = 1 ∧
       (Paper.place_limit_buy [] (OrderBook.mk [] [(1, 5)]) "p1" .YES 3 2).2.2 = [⟨.YES, 1, 2⟩])) := by
  refine ⟨by decide, by decide, ?_⟩
  exact (C1_paper_realistic_fill_policy [] (OrderBook.mk [] [(1, 5)]) "p1" .YES 3 2 1
    (by decide) (by decide)).1

/-! ## C4: market_buy behavior on empty and non-empty books -/

/-- C4 counterexample: on a book with no asks, the paper engine's
`market_buy` does not fail — it returns an order already FILLED at the
sentinel price 0.55; and on a book with a best ask, the live engine's
`market_buy` returns an OPEN order (a resting limit buy at the ask), not an
immediately FILLED one.  Both refute the claim as stated. -/
theorem C4_market_buy_counterexample :
    (OrderBook.mk [] []).best_ask = none ∧
    (Paper.market_buy [] (OrderBook.mk [] []) "m1" .YES 3).1.status = .FILLED ∧
    (Paper.market_buy [] (OrderBook.mk [] []) "m1" .YES 3).1.filled_avg_price = 55/100 ∧
    Live.market_buy [] (OrderBook.mk [] [((1 : ℚ), 2)]) .YES 3 (.ok "x") =
      .ok (⟨"x", .YES, 1, 3, .OPEN, 0, 0⟩, [⟨"x", .YES, 1, 3, .OPEN, 0, 0⟩]) := by
  refine ⟨rfl, rfl, rfl, ?_⟩
  simp [Live.market_buy, Live.place_limit_buy, OrderBook.truthy_best_ask,
    OrderBook.best_ask]

/-- C4 (amended): the paper engine's `market_buy` always returns an
immediately FILLED order for the full size — at the (truthy) best ask when
one exists, at the sentinel 0.55 otherwise — and notifies the fill; the
live engine's `market_buy` raises exactly when the book has no truthy best
ask, and otherwise places a limit buy at the best ask that is returned in
status OPEN with nothing filled yet. -/
theorem C4_market_buy_behavior
    (orders : List Order) (book : OrderBook) (newId : String) (side : OrderSide)
    (size : ℚ) (postId : String) :
    ((Paper.market_buy orders book newId side size).1.status = .FILLED ∧
     (Paper.market_buy orders book newId side size).1.filled_qty = size ∧
     (∀ a, book.truthy_best_ask = some a →
       (Paper.market_buy orders book newId side size).1.filled_avg_price = a) ∧
     (book.truthy_best_ask = none →
       (Paper.market_buy orders book newId side size).1.filled_avg_price = 55/100) ∧
     (Paper.market_buy orders book newId side size).2.2 =
       [⟨side, (Paper.market_buy orders book newId side size).1.filled_avg_price, size⟩]) ∧
    ((book.truthy_best_ask = none →
       Live.market_buy orders book side size (.ok postId) = .error ()) ∧
     (∀ a, book.truthy_best_ask = some a →
       Live.market_buy orders book side size (.ok postId) =
         .ok (⟨postId, side, a, size, .OPEN, 0, 0⟩,
              orders ++ [⟨postId, side, a, size, .OPEN, 0, 0⟩]))) := by
  constructor
  · refine ⟨?_, ?_, ?_, ?_, ?_⟩
    · cases hb : book.truthy_best_ask <;> simp [Paper.market_buy, hb]
    · cases hb : book.truthy_best_ask <;> simp [Paper.market_buy, hb]
    · intro a ha; simp [Paper.market_buy, ha]
    · intro ha; simp [Paper.market_buy, ha]
    · cases hb : book.truthy_best_ask <;> simp [Paper.market_buy, hb]
  · constructor
    · intro ha; simp [Live.market_buy, ha]
    · intro a ha; simp [Live.market_buy, ha, Live.place_limit_buy]

/-- Witness for C4 at concrete inputs: an empty book (no truthy ask) for the
paper sentinel fill and the live raise. -/
theorem C4_market_buy_behavior_witness :
    (OrderBook.mk [] []).truthy_best_ask = none ∧
    (Paper.market_buy [] (OrderBook.mk [] []) "m2" .NO 4).1.filled_avg_price = 55/100 ∧
    Live.market_buy [] (OrderBook.mk [] []) .NO 4 (.ok "y") = .error () := by
  refine ⟨rfl, ?_, ?_⟩
  · exact (C4_market_buy_behavior [] (OrderBook.mk [] []) "m2" .NO 4 "y").1.2.2.2.1 rfl
  · exact (C4_market_buy_behavior [] (OrderBook.mk [] []) "m2" .NO 4 "y").2.1 rfl

/-! ## C5: get_order_book totality and fallbacks -/

/-- C5 counterexample: when the venue responds successfully with a book that
has zero entries on both sides, the paper engine's ingestion returns the
sentinel default book — which reports liquidity at 0.50/0.52 — rather than
a snapshot reflecting the no-liquidity state. -/
theorem C5_empty_book_counterexample :
    Paper.fetch_live_order_book (.ok 200 [] []) = Paper.default_book ∧
    Paper.default_book.asks = [(52/100, 100)] ∧
    Paper.fetch_live_order_book (.ok 200 [] []) ≠ OrderBook.mk [] [] := by
  refine ⟨rfl, rfl, ?_⟩
  decide

/-- C5 (amended): both engines' book queries are total functions of the
fetch outcome (they never propagate an error).  The paper engine falls back
to the sentinel default book on any failure, on a non-200 status, and also
on a successful response whose two sides are both empty; the cache lookup
without a cached entry also yields the default.  The live engine returns
the empty snapshot on an exception, on a `None` payload, and on a
successful response with zero entries on both sides — reflecting
no-liquidity for the latter. -/
theorem C5_get_order_book_fallbacks
    (status : Nat) (rawBids rawAsks : List Paper.RawLevel) (side : OrderSide) :
    (status ≠ 200 →
      Paper.fetch_live_order_book (.ok status rawBids rawAsks) = Paper.default_book) ∧
    Paper.fetch_live_order_book .failure = Paper.default_book ∧
    Paper.fetch_live_order_book (.ok 200 [] []) = Paper.default_book ∧
    Paper.get_order_book (fun _ => none) side = Paper.default_book ∧
    Live.get_order_book .failure = OrderBook.mk [] [] ∧
    Live.get_order_book (.ok none) = OrderBook.mk [] [] ∧
    Live.get_order_book (.ok (some ([], []))) = OrderBook.mk [] [] := by
  refine ⟨?_, rfl, rfl, rfl, rfl, rfl, rfl⟩
  intro hst
  simp [Paper.fetch_live_order_book, hst]

/-- Witness for C5 at a concrete non-200 status. -/
theorem C5_get_order_book_fallbacks_witness :
    (500 : Nat) ≠ 200 ∧
    Paper.fetch_live_order_book (.ok 500 [] [⟨1, 1⟩]) = Paper.default_book := by
  refine ⟨by decide, ?_⟩
  exact (C5_get_order_book_fallbacks 500 [] [⟨1, 1⟩] .YES).1 (by decide)

/-! ## C7: scanner sizing formula -/

/-- C7 counterexample: the code divides by `max(1e-9, p_sum)`, not by the
combined ask itself.  With both asks at 1e-10 (edge 1 − 2e-10 well above
min_edge 0.005) and huge top-of-book sizes, the code sizes 5/1e-9 = 5e9
shares while the claimed formula min(5/2e-10, sizes) gives 1e10. -/
theorem C7_scanner_sizing_counterexample :
    Scanner.sizeAttempt ⟨1/200, 5⟩ (1/10000000000) 10000000000
        (1/10000000000) 10000000000 = some 5000000000 ∧
    Scanner.claimedQty ⟨1/200, 5⟩ (1/10000000000) 10000000000
        (1/10000000000) 10000000000 = 10000000000 ∧
    (5000000000 : ℚ) ≠ 10000000000 := by
  refine ⟨?_, ?_, by norm_num⟩
  · norm_num [Scanner.sizeAttempt, max_def, min_def]
  · norm_num [Scanner.claimedQty, min_def]

/-- C7 (amended): whenever the edge gate passes and the combined best ask is
at least the 1e-9 division guard, the attempted quantity is exactly
min(target notional / (ask1 + ask2), size1, size2), and the attempt is
skipped precisely when that quantity is ≤ 0. -/
theorem C7_scanner_sizing (params : Scanner.FastArbParams) (p_up s_up p_down s_down : ℚ)
    (hedge : params.min_edge ≤ 1 - (p_up + p_down))
    (heps : 1/1000000000 ≤ p_up + p_down) :
    Scanner.sizeAttempt params p_up s_up p_down s_down =
      if Scanner.claimedQty params p_up s_up p_down s_down ≤ 0 then none
      else some (Scanner.claimedQty params p_up s_up p_down s_down) := by
  have h1 : ¬ (1 - (p_up + p_down) < params.min_edge) := not_lt.mpr hedge
  have h2 : max ((1000000000 : ℚ)⁻¹) (p_up + p_down) = p_up + p_down :=
    max_eq_right (by rw [← one_div]; exact heps)
  simp [Scanner.sizeAttempt, Scanner.claimedQty, h1, h2]

/-- Witness for C7 at the spec's worked example: asks 0.47 and 0.49 (edge
0.04 ≥ min_edge 0.005), sizes 10 and 8, target notional 5; the sized
quantity is min(5/0.96, 10, 8) = 125/24 ≈ 5.208. -/
theorem C7_scanner_sizing_witness :
    ((⟨1/200, 5⟩ : Scanner.FastArbParams).min_edge ≤ 1 - (47/100 + 49/100)) ∧
    ((1 : ℚ)/1000000000 ≤ 47/100 + 49/100) ∧
    Scanner.claimedQty ⟨1/200, 5⟩ (47/100) 10 (49/100) 8 = 125/24 ∧
    Scanner.sizeAttempt ⟨1/200, 5⟩ (47/100) 10 (49/100) 8 =
      (if Scanner.claimedQty ⟨1/200, 5⟩ (47/100) 10 (49/100) 8 ≤ 0 then none
       else some (Scanner.claimedQty ⟨1/200, 5⟩ (47/100) 10 (49/100) 8)) := by
  refine ⟨by norm_num, by norm_num, by norm_num [Scanner.claimedQty, min_def], ?_⟩
  exact C7_scanner_sizing ⟨1/200, 5⟩ (47/100) 10 (49/100) 8 (by norm_num) (by norm_num)

/-! ## Ledger aggregation lemmas -/

namespace Ledger

attribute [ext] PerformanceStats

/-- Number of LOCKED cycles in a list. -/
def countLocked (cs : List CycleRecord) : Nat :=
  cs.countP (fun c => decide (c.status = "LOCKED"))

/-- Number of STOPPED cycles in a list. -/
def countStopped (cs : List CycleRecord) : Nat :=
  cs.countP (fun c => decide (c.status = "STOPPED"))

/-- Number of EXPIRED cycles in a list. -/
def countExpired (cs : List CycleRecord) : Nat :=
  cs.countP (fun c => decide (c.status = "EXPIRED"))

/-- Gross-profit contribution of one closed cycle. -/
def gpOf (c : CycleRecord) : ℚ :=
  if c.status = "LOCKED" ∧ 0 < c.locked_profit then c.locked_profit else 0

/-- Gross-loss contribution of one closed cycle. -/
def glOf (c : CycleRecord) : ℚ :=
  if c.status = "LOCKED" then (if 0 < c.locked_profit then 0 else |c.locked_profit|)
  else if c.status = "STOPPED" then
    (if 0 < c.total_cost then c.total_cost * (1/2) else 0)
  else 0

theorem statsStep_char (i : PerformanceStats) (c : CycleRecord) :
    statsStep i c =
      { i with
        locked_cycles := i.locked_cycles + (if c.status = "LOCKED" then 1 else 0),
        stopped_cycles := i.stopped_cycles + (if c.status = "STOPPED" then 1 else 0),
        expired_cycles := i.expired_cycles + (if c.status = "EXPIRED" then 1 else 0),
        completed_cycles :=
          i.completed_cycles +
            ((if c.status = "LOCKED" then 1 else 0) +
             (if c.status = "STOPPED" then 1 else 0)),
        gross_profit := i.gross_profit + gpOf c,
        gross_loss := i.gross_loss + glOf c } := by
  unfold statsStep gpOf glOf
  by_cases hL : c.status = "LOCKED"
  · have hS : ¬ c.status = "STOPPED" := by rw [hL]; decide
    have hE : ¬ c.status = "EXPIRED" := by rw [hL]; decide
    by_cases hp : 0 < c.locked_profit <;> simp [hL, hS, hE, hp]
  · by_cases hS : c.status = "STOPPED"
    · have hE : ¬ c.status = "EXPIRED" := by rw [hS]; decide
      by_cases htc : 0 < c.total_cost <;> simp [hL, hS, hE, htc]
    · by_cases hE : c.status = "EXPIRED" <;> simp [hL, hS, hE]

theorem foldl_statsStep_char (cs : List CycleRecord) (i : PerformanceStats) :
    cs.foldl statsStep i =
      { i with
        locked_cycles := i.locked_cycles + countLocked cs,
        stopped_cycles := i.stopped_cycles + countStopped cs,
        expired_cycles := i.expired_cycles + countExpired cs,
        completed_cycles := i.completed_cycles + (countLocked cs + countStopped cs),
        gross_profit := i.gross_profit + (cs.map gpOf).sum,
        gross_loss := i.gross_loss + (cs.map glOf).sum } := by
  induction cs generalizing i with
  | nil => simp [countLocked, countStopped, countExpired]
  | cons c rest ih =>
      rw [List.foldl_cons, statsStep_char, ih]
      ext <;>
        simp [countLocked, countStopped, countExpired, List.countP_cons] <;>
        first
          | omega
          | ring

/-- The aggregate fields of `get_stats` in closed form. -/
theorem get_stats_fields (st : LedgerState) (now : Time) :
    (get_stats st now).total_trades = st.trades.length ∧
    (get_stats st now).total_cycles = st.cycles.length ∧
    (get_stats st now).locked_cycles = countLocked st.cycles ∧
    (get_stats st now).stopped_cycles = countStopped st.cycles ∧
    (get_stats st now).expired_cycles = countExpired st.cycles ∧
    (get_stats st now).completed_cycles = countLocked st.cycles + countStopped st.cycles ∧
    (get_stats st now).gross_profit = (st.cycles.map gpOf).sum ∧
    (get_stats st now).gross_loss = (st.cycles.map glOf).sum ∧
    (get_stats st now).net_pnl = (st.cycles.map gpOf).sum - (st.cycles.map glOf).sum ∧
    (get_stats st now).win_rate =
      (if 0 < countLocked st.cycles + countStopped st.cycles then
        (countLocked st.cycles : ℚ) / ((countLocked st.cycles + countStopped st.cycles : Nat) : ℚ)
      else 0) ∧
    (get_stats st now).avg_profit_per_cycle =
      (if 0 < countLocked st.cycles + countStopped st.cycles then
        ((st.cycles.map gpOf).sum - (st.cycles.map glOf).sum) /
          ((countLocked st.cycles + countStopped st.cycles : Nat) : ℚ)
      else 0) := by
  simp [get_stats, foldl_statsStep_char, initStats]

end Ledger

/-! ## C8: session save/load round trip -/

/-- C8: saving a session and constructing a new logger from the saved data
reproduces the trade and cycle collections field-for-field, and the
reloaded ledger's `get_stats`, evaluated at any one instant, is identical
to the original ledger's at that same instant (the wall clock enters the
embedding only as the explicit evaluation instant). -/
theorem C8_session_roundtrip (st : Ledger.LedgerState) (now : Ledger.Time)
    (name : String) :
    (Ledger.load_session (Ledger.save_session st now) name).trades = st.trades ∧
    (Ledger.load_session (Ledger.save_session st now) name).cycles = st.cycles ∧
    ∀ t : Ledger.Time,
      Ledger.get_stats (Ledger.load_session (Ledger.save_session st now) name) t =
        Ledger.get_stats st t :=
  ⟨rfl, rfl, fun _ => rfl⟩

/-! ## C9: completing a LOCKED cycle -/

/-- C9: with a cycle open, `complete_cycle("LOCKED", profit)` followed by
`get_stats` shows `locked_cycles` and `completed_cycles` each one greater
than before; `gross_profit` grows by `profit` (loss unchanged) when the
profit is positive, and `gross_loss` grows by `|profit|` (profit unchanged)
when it is negative. -/
theorem C9_complete_cycle_locked_stats (st : Ledger.LedgerState)
    (c : Ledger.CycleRecord) (now t : Ledger.Time) (profit : ℚ)
    (h : st.current_cycle = some c) :
    ((Ledger.get_stats (Ledger.complete_cycle st now "LOCKED" profit) t).locked_cycles =
       (Ledger.get_stats st t).locked_cycles + 1) ∧
    ((Ledger.get_stats (Ledger.complete_cycle st now "LOCKED" profit) t).completed_cycles =
       (Ledger.get_stats st t).completed_cycles + 1) ∧
    (0 < profit →
      (Ledger.get_stats (Ledger.complete_cycle st now "LOCKED" profit) t).gross_profit =
        (Ledger.get_stats st t).gross_profit + profit ∧
      (Ledger.get_stats (Ledger.complete_cycle st now "LOCKED" profit) t).gross_loss =
        (Ledger.get_stats st t).gross_loss) ∧
    (profit < 0 →
      (Ledger.get_stats (Ledger.complete_cycle st now "LOCKED" profit) t).gross_loss =
        (Ledger.get_stats st t).gross_loss + |profit| ∧
      (Ledger.get_stats (Ledger.complete_cycle st now "LOCKED" profit) t).gross_profit =
        (Ledger.get_stats st t).gross_profit) := by
  refine ⟨?_, ?_, ?_, ?_⟩
  · simp [Ledger.get_stats, Ledger.foldl_statsStep_char, Ledger.statsStep_char,
      Ledger.initStats, Ledger.complete_cycle, h, Ledger.countLocked,
      Ledger.countStopped, Ledger.countExpired, List.countP_append,
      List.countP_cons, Ledger.gpOf, Ledger.glOf]
  · simp [Ledger.get_stats, Ledger.foldl_statsStep_char, Ledger.statsStep_char,
      Ledger.initStats, Ledger.complete_cycle, h, Ledger.countLocked,
      Ledger.countStopped, Ledger.countExpired, List.countP_append,
      List.countP_cons, Ledger.gpOf, Ledger.glOf]
  · intro hp
    constructor
    · simp [Ledger.get_stats, Ledger.foldl_statsStep_char, Ledger.statsStep_char,
        Ledger.initStats, Ledger.complete_cycle, h, Ledger.gpOf, Ledger.glOf, hp]
    · simp [Ledger.get_stats, Ledger.foldl_statsStep_char, Ledger.statsStep_char,
        Ledger.initStats, Ledger.complete_cycle, h, Ledger.gpOf, Ledger.glOf, hp]
  · intro hn
    have hp : ¬ 0 < profit := lt_asymm hn
    constructor
    · simp [Ledger.get_stats, Ledger.foldl_statsStep_char, Ledger.statsStep_char,
        Ledger.initStats, Ledger.complete_cycle, h, Ledger.gpOf, Ledger.glOf, hp]
    · simp [Ledger.get_stats, Ledger.foldl_statsStep_char, Ledger.statsStep_char,
        Ledger.initStats, Ledger.complete_cycle, h, Ledger.gpOf, Ledger.glOf, hp]

/-- Witness for C9 at a concrete ledger with one open cycle and profit 7. -/
theorem C9_complete_cycle_locked_stats_witness :
    (Ledger.LedgerState.mk "s" ⟨"t0", 0⟩ [] []
        (some ⟨"c1", "m", "BTC", "t1", none, none, none, none, none, 0, 0, "OPEN"⟩)).current_cycle =
      some ⟨"c1", "m", "BTC", "t1", none, none, none, none, none, 0, 0, "OPEN"⟩ ∧
    ((Ledger.get_stats
        (Ledger.complete_cycle
          (Ledger.LedgerState.mk "s" ⟨"t0", 0⟩ [] []
            (some ⟨"c1", "m", "BTC", "t1", none, none, none, none, none, 0, 0, "OPEN"⟩))
          ⟨"t2", 3600⟩ "LOCKED" 7) ⟨"t3", 7200⟩).locked_cycles =
      (Ledger.get_stats
        (Ledger.LedgerState.mk "s" ⟨"t0", 0⟩ [] []
          (some ⟨"c1", "m", "BTC", "t1", none, none, none, none, none, 0, 0, "OPEN"⟩))
        ⟨"t3", 7200⟩).locked_cycles + 1) :=
  ⟨rfl,
    (C9_complete_cycle_locked_stats
      (Ledger.LedgerState.mk "s" ⟨"t0", 0⟩ [] []
        (some ⟨"c1", "m", "BTC", "t1", none, none, none, none, none, 0, 0, "OPEN"⟩))
      ⟨"c1", "m", "BTC", "t1", none, none, none, none, none, 0, 0, "OPEN"⟩
      ⟨"t2", 3600⟩ ⟨"t3", 7200⟩ 7 rfl).1⟩

/-! ## C10: EXPIRED cycles count only as expired -/

/-- C10: wherever an EXPIRED cycle sits among the closed cycles, it raises
`expired_cycles` by exactly one and changes nothing else that `get_stats`
derives from closed cycles: `completed_cycles`, `locked_cycles`,
`stopped_cycles`, `gross_profit`, `gross_loss` (regardless of the cycle's
`total_cost` or `locked_profit`), and hence `net_pnl`, `win_rate` and
`avg_profit_per_cycle`, are identical to the stats without it. -/
theorem C10_expired_cycle_stats (st : Ledger.LedgerState)
    (pre post : List Ledger.CycleRecord) (ec : Ledger.CycleRecord)
    (t : Ledger.Time) (h : ec.status = "EXPIRED") :
    ((Ledger.get_stats { st with cycles := pre ++ ec :: post } t).expired_cycles =
       (Ledger.get_stats { st with cycles := pre ++ post } t).expired_cycles + 1) ∧
    ((Ledger.get_stats { st with cycles := pre ++ ec :: post } t).completed_cycles =
       (Ledger.get_stats { st with cycles := pre ++ post } t).completed_cycles) ∧
    ((Ledger.get_stats { st with cycles := pre ++ ec :: post } t).locked_cycles =
       (Ledger.get_stats { st with cycles := pre ++ post } t).locked_cycles) ∧
    ((Ledger.get_stats { st with cycles := pre ++ ec :: post } t).stopped_cycles =
       (Ledger.get_stats { st with cycles := pre ++ post } t).stopped_cycles) ∧
    ((Ledger.get_stats { st with cycles := pre ++ ec :: post } t).gross_profit =
       (Ledger.get_stats { st with cycles := pre ++ post } t).gross_profit) ∧
    ((Ledger.get_stats { st with cycles := pre ++ ec :: post } t).gross_loss =
       (Ledger.get_stats { st with cycles := pre ++ post } t).gross_loss) ∧
    ((Ledger.get_stats { st with cycles := pre ++ ec :: post } t).net_pnl =
       (Ledger.get_stats { st with cycles := pre ++ post } t).net_pnl) ∧
    ((Ledger.get_stats { st with cycles := pre ++ ec :: post } t).win_rate =
       (Ledger.get_stats { st with cycles := pre ++ post } t).win_rate) ∧
    ((Ledger.get_stats { st with cycles := pre ++ ec :: post } t).avg_profit_per_cycle =
       (Ledger.get_stats { st with cycles := pre ++ post } t).avg_profit_per_cycle) := by
  have hL : ¬ ec.status = "LOCKED" := by rw [h]; decide
  have hS : ¬ ec.status = "STOPPED" := by rw [h]; decide
  refine ⟨?_, ?_, ?_, ?_, ?_, ?_, ?_, ?_, ?_⟩ <;>
    (simp [Ledger.get_stats, Ledger.foldl_statsStep_char, Ledger.statsStep_char,
      Ledger.initStats, Ledger.countLocked, Ledger.countStopped,
      Ledger.countExpired, List.countP_append, List.countP_cons, Ledger.gpOf,
      Ledger.glOf, h, hL, hS]
     try omega)

/-- Witness for C10 at a concrete EXPIRED cycle appended to an empty cycle
list. -/
theorem C10_expired_cycle_stats_witness :
    (Ledger.CycleRecord.mk "c2" "m" "BTC" "t1" none none none none none 9 3
        "EXPIRED").status = "EXPIRED" ∧
    ((Ledger.get_stats
        { Ledger.LedgerState.mk "s" ⟨"t0", 0⟩ [] [] none with
          cycles :=
            [] ++ Ledger.CycleRecord.mk "c2" "m" "BTC" "t1" none none none none none 9 3
              "EXPIRED" :: [] } ⟨"t3", 7200⟩).expired_cycles =
      (Ledger.get_stats
        { Ledger.LedgerState.mk "s" ⟨"t0", 0⟩ [] [] none with
          cycles := [] ++ [] } ⟨"t3", 7200⟩).expired_cycles + 1) :=
  ⟨rfl,
    (C10_expired_cycle_stats (Ledger.LedgerState.mk "s" ⟨"t0", 0⟩ [] [] none) [] []
      (Ledger.CycleRecord.mk "c2" "m" "BTC" "t1" none none none none none 9 3 "EXPIRED")
      ⟨"t3", 7200⟩ rfl).1⟩

/-! ## C2: order-book ingestion invariants -/

theorem parseLevels_pos {raw : List Paper.RawLevel} {e : ℚ × ℚ}
    (he : e ∈ Paper.parseLevels raw) : 0 < e.1 ∧ 0 < e.2 := by
  simp only [Paper.parseLevels, List.mem_map, List.mem_filter, Bool.and_eq_true,
    decide_eq_true_eq] at he
  obtain ⟨l, ⟨_, hp, hs⟩, rfl⟩ := he
  exact ⟨hp, hs⟩

theorem sortBids_pairwise (l : List (ℚ × ℚ)) : (sortBids l).Pairwise bidLe :=
  List.sorted_insertionSort bidLe l

theorem sortAsks_pairwise (l : List (ℚ × ℚ)) : (sortAsks l).Pairwise askLe :=
  List.sorted_insertionSort askLe l

theorem mem_sortBids {l : List (ℚ × ℚ)} {e : ℚ × ℚ} (h : e ∈ sortBids l) : e ∈ l :=
  (List.perm_insertionSort bidLe l).mem_iff.mp h

theorem mem_sortAsks {l : List (ℚ × ℚ)} {e : ℚ × ℚ} (h : e ∈ sortAsks l) : e ∈ l :=
  (List.perm_insertionSort askLe l).mem_iff.mp h

/-- C2 counterexample: the live normalizer retains entries with
non-positive price and size, and its sort is non-strict — on the raw ask
levels (1, 1), (1, 2), (0, 0) it produces [(0, 0), (1, 1), (1, 2)], which
keeps the (0, 0) entry and is not strictly ascending by price (two entries
at price 1). -/
theorem C2_book_ingestion_counterexample :
    (Live.normalize_order_book_summary
        (some ([], [.valid 1 1, .valid 1 2, .valid 0 0]))).asks =
      [((0 : ℚ), (0 : ℚ)), (1, 1), (1, 2)] ∧
    ((0 : ℚ), (0 : ℚ)) ∈
      (Live.normalize_order_book_summary
        (some ([], [.valid 1 1, .valid 1 2, .valid 0 0]))).asks ∧
    ¬ (Live.normalize_order_book_summary
        (some ([], [.valid 1 1, .valid 1 2, .valid 0 0]))).asks.Pairwise
        (fun a b : ℚ × ℚ => a.1 < b.1) := by
  have he : (Live.normalize_order_book_summary
      (some ([], [.valid 1 1, .valid 1 2, .valid 0 0]))).asks =
      [((0 : ℚ), (0 : ℚ)), (1, 1), (1, 2)] := by decide
  refine ⟨he, by rw [he]; simp, ?_⟩
  rw [he]
  intro hpw
  have h12 := (List.pairwise_cons.mp (List.pairwise_cons.mp hpw).2).1 (1, 2) (by simp)
  exact absurd h12 (lt_irrefl _)

/-- C2 (amended): every book the paper engine's ingestion produces has bids
sorted in non-increasing and asks in non-decreasing price order (equal
prices may repeat, so strict monotonicity can fail) and contains only
entries with positive price and size; the live engine's normalizer
produces the same non-strict orderings but performs no positivity
filtering. -/
theorem C2_book_ingestion_invariants (res : Paper.FetchOutcome)
    (raw : Option (List Live.RawSummaryLevel × List Live.RawSummaryLevel)) :
    ((Paper.fetch_live_order_book res).bids.Pairwise bidLe ∧
     (Paper.fetch_live_order_book res).asks.Pairwise askLe ∧
     (∀ e ∈ (Paper.fetch_live_order_book res).bids, 0 < e.1 ∧ 0 < e.2) ∧
     (∀ e ∈ (Paper.fetch_live_order_book res).asks, 0 < e.1 ∧ 0 < e.2)) ∧
    ((Live.normalize_order_book_summary raw).bids.Pairwise bidLe ∧
     (Live.normalize_order_book_summary raw).asks.Pairwise askLe) := by
  constructor
  · have hdef : Paper.default_book.bids.Pairwise bidLe ∧
        Paper.default_book.asks.Pairwise askLe ∧
        (∀ e ∈ Paper.default_book.bids, 0 < e.1 ∧ 0 < e.2) ∧
        (∀ e ∈ Paper.default_book.asks, 0 < e.1 ∧ 0 < e.2) := by
      refine ⟨by simp [Paper.default_book], by simp [Paper.default_book], ?_, ?_⟩ <;>
        (intro e he
         simp [Paper.default_book] at he
         rw [he]
         norm_num)
    cases res with
    | failure => exact hdef
    | ok status rawBids rawAsks =>
        by_cases hst : status = 200
        · by_cases hne : sortBids (Paper.parseLevels rawBids) ≠ [] ∨
              sortAsks (Paper.parseLevels rawAsks) ≠ []
          · have hbook : Paper.fetch_live_order_book (.ok status rawBids rawAsks) =
                { bids := sortBids (Paper.parseLevels rawBids),
                  asks := sortAsks (Paper.parseLevels rawAsks) } := by
              simp [Paper.fetch_live_order_book, hst, hne]
            rw [hbook]
            refine ⟨sortBids_pairwise _, sortAsks_pairwise _, ?_, ?_⟩
            · intro e he
              exact parseLevels_pos (mem_sortBids he)
            · intro e he
              exact parseLevels_pos (mem_sortAsks he)
          · have hbook : Paper.fetch_live_order_book (.ok status rawBids rawAsks) =
                Paper.default_book := by
              simp [Paper.fetch_live_order_book, hst, hne]
            rw [hbook]; exact hdef
        · have hbook : Paper.fetch_live_order_book (.ok status rawBids rawAsks) =
              Paper.default_book := by
            simp [Paper.fetch_live_order_book, hst]
          rw [hbook]; exact hdef
  · cases raw with
    | none => simp [Live.normalize_order_book_summary]
    | some p =>
        exact ⟨List.sorted_insertionSort bidLe _, List.sorted_insertionSort askLe _⟩

/-- Witness for C2: a concrete successful fetch with one bid and one ask;
the positivity facts are discharged at the bid entry (2, 3). -/
theorem C2_book_ingestion_invariants_witness :
    ((2 : ℚ), (3 : ℚ)) ∈
      (Paper.fetch_live_order_book (.ok 200 [⟨2, 3⟩] [⟨1, 4⟩])).bids ∧
    (0 < (2 : ℚ) ∧ 0 < (3 : ℚ)) := by
  have hm : ((2 : ℚ), (3 : ℚ)) ∈
      (Paper.fetch_live_order_book (.ok 200 [⟨2, 3⟩] [⟨1, 4⟩])).bids := by decide
  exact ⟨hm,
    (C2_book_ingestion_invariants (.ok 200 [⟨2, 3⟩] [⟨1, 4⟩]) none).1.2.2.1 _ hm⟩

/-! ## C3: fill-callback uniqueness -/

/-- C3 counterexample: a direct repeated `refresh_order_status` on an order
already FILLED (with positive filled quantity) re-invokes the fill callback
when the venue again reports the filled state: the claim's exactly-once
guarantee fails for repeated refreshes. -/
theorem C3_fill_callback_counterexample :
    (Order.mk "a" .YES 1 2 .FILLED 2 1).status = .FILLED ∧
    Live.refresh_order_status [Order.mk "a" .YES 1 2 .FILLED 2 1] "a"
        (.dict "filled" 2 1) =
      ([Order.mk "a" .YES 1 2 .FILLED 2 1], [⟨.YES, 1, 2⟩]) := by
  constructor
  · rfl
  · decide

/-- The net effect of one poll pass on a single tracked order: an order
that is still active is refreshed against the venue's response for its id
(`refresh_one`; an exception leaves it untouched with no notification),
while an inactive order — FILLED, CANCELLED or REJECTED — is skipped
entirely. -/
def pollRefresh (resp : String → Live.ApiOrderResult) (o : Order) :
    Order × List Fill :=
  if o.is_active then Live.refresh_one o (resp o.id) else (o, [])

theorem refresh_one_fst_id (o : Order) (r : Live.ApiOrderResult) :
    (Live.refresh_one o r).1.id = o.id := by
  cases r with
  | exc => rfl
  | dict s fs afp =>
      simp only [Live.refresh_one]
      split <;> rfl
  | nondict =>
      simp only [Live.refresh_one]
      split <;> rfl

theorem pollRefresh_fst_id (resp : String → Live.ApiOrderResult) (o : Order) :
    (pollRefresh resp o).1.id = o.id := by
  unfold pollRefresh
  by_cases h : o.is_active = true
  · rw [if_pos h]; exact refresh_one_fst_id o (resp o.id)
  · rw [if_neg h]

theorem pollRefresh_of_inactive (resp : String → Live.ApiOrderResult)
    (o : Order) (h : o.is_active = false) : pollRefresh resp o = (o, []) := by
  simp [pollRefresh, h]

theorem find?_id_of_fresh (pre : List Order) (o : Order) (rest : List Order)
    (hfresh : ∀ x ∈ pre, x.id ≠ o.id) :
    (pre ++ o :: rest).find? (fun x => decide (x.id = o.id)) = some o := by
  induction pre with
  | nil => exact List.find?_cons_of_pos rest (by simp)
  | cons p pre ih =>
      rw [List.cons_append, List.find?_cons_of_neg]
      · exact ih (fun x hx => hfresh x (List.mem_cons_of_mem p hx))
      · simp [hfresh p (List.mem_cons_self p pre)]

theorem map_update_id (pre rest : List Order) (o u : Order)
    (hfreshPre : ∀ x ∈ pre, x.id ≠ o.id) (hfreshRest : ∀ x ∈ rest, x.id ≠ o.id) :
    (pre ++ o :: rest).map (fun x => if x.id = o.id then u else x) =
      pre ++ u :: rest := by
  rw [List.map_append, List.map_cons, if_pos rfl]
  have hpre : pre.map (fun x => if x.id = o.id then u else x) = pre := by
    rw [List.map_congr_left (g := id), List.map_id]
    intro x hx
    exact if_neg (hfreshPre x hx)
  have hrest : rest.map (fun x => if x.id = o.id then u else x) = rest := by
    rw [List.map_congr_left (g := id), List.map_id]
    intro x hx
    exact if_neg (hfreshRest x hx)
  rw [hpre, hrest]

/-- Under distinct order ids (the `dict` key invariant), one poll pass acts
on each tracked order independently: the resulting table maps each order
through `pollRefresh`, and the emitted notifications are the concatenation
of each order's own. -/
theorem poll_go (resp : String → Live.ApiOrderResult) (todo : List Order) :
    ∀ (pre : List Order) (fills : List Fill),
    ((pre ++ todo).map Order.id).Nodup →
    (todo.map Order.id).foldl (Live.pollStep resp) (pre ++ todo, fills) =
      (pre ++ todo.map (fun x => (pollRefresh resp x).1),
       fills ++ (todo.map (fun x => (pollRefresh resp x).2)).flatten) := by
  induction todo with
  | nil => intro pre fills _; simp
  | cons o rest ih =>
      intro pre fills hnd
      have hnotin : o.id ∉ (pre ++ rest).map Order.id := by
        rw [List.map_append] at hnd ⊢
        rw [List.map_cons] at hnd
        intro hmem
        rcases List.mem_append.mp hmem with hmem | hmem
        · exact (List.disjoint_of_nodup_append hnd) hmem (by simp)
        · exact (List.nodup_cons.mp (List.nodup_append.mp hnd).2.1).1 hmem
      have hfreshPre : ∀ x ∈ pre, x.id ≠ o.id := by
        intro x hx heq
        refine hnotin ?_
        rw [List.map_append]
        exact List.mem_append_left _ (heq ▸ List.mem_map_of_mem Order.id hx)
      have hfreshRest : ∀ x ∈ rest, x.id ≠ o.id := by
        intro x hx heq
        refine hnotin ?_
        rw [List.map_append]
        exact List.mem_append_right _ (heq ▸ List.mem_map_of_mem Order.id hx)
      have hfind : (pre ++ o :: rest).find? (fun x => decide (x.id = o.id)) = some o :=
        find?_id_of_fresh pre o rest hfreshPre
      rw [List.map_cons, List.foldl_cons]
      have hstep : Live.pollStep resp (pre ++ o :: rest, fills) o.id =
          (pre ++ (pollRefresh resp o).1 :: rest, fills ++ (pollRefresh resp o).2) := by
        by_cases ha : o.is_active
        · cases hr : resp o.id with
          | exc =>
              simp [Live.pollStep, hfind, ha, Live.refresh_order_status,
                pollRefresh, hr, Live.refresh_one]
          | dict s fs afp =>
              have hupd := map_update_id pre rest o
                (Live.refresh_one o (.dict s fs afp)).1 hfreshPre hfreshRest
              simp [Live.pollStep, hfind, ha, Live.refresh_order_status,
                pollRefresh, hr, hupd]
          | nondict =>
              have hupd := map_update_id pre rest o
                (Live.refresh_one o .nondict).1 hfreshPre hfreshRest
              simp [Live.pollStep, hfind, ha, Live.refresh_order_status,
                pollRefresh, hr, hupd]
        · simp [Live.pollStep, hfind, ha, pollRefresh]
      rw [hstep]
      have hids : (((pre ++ [(pollRefresh resp o).1]) ++ rest).map Order.id) =
          ((pre ++ o :: rest).map Order.id) := by
        simp [pollRefresh_fst_id]
      have hnd2 : (((pre ++ [(pollRefresh resp o).1]) ++ rest).map Order.id).Nodup := by
        rw [hids]; exact hnd
      have hih := ih (pre ++ [(pollRefresh resp o).1])
        (fills ++ (pollRefresh resp o).2) hnd2
      have hpair : ((pre ++ [(pollRefresh resp o).1]) ++ rest,
          fills ++ (pollRefresh resp o).2) =
          (pre ++ (pollRefresh resp o).1 :: rest,
           fills ++ (pollRefresh resp o).2) := by simp
      rw [hpair] at hih
      rw [hih]
      refine Prod.ext ?_ ?_ <;> simp

/-- C3 (amended): under distinct order ids, a `poll_for_fills` pass treats
each tracked order independently; an order that is already FILLED (or
otherwise inactive) is skipped — returned unchanged and contributing no
notification — even when the table still holds active orders being
refreshed alongside it; but a direct repeated `refresh_order_status` call
on an order already FILLED re-invokes the callback whenever the response
again reports status "filled" with positive filled quantity. -/
theorem C3_fill_callback_once (orders : List Order)
    (resp : String → Live.ApiOrderResult) (oid : String) (o : Order)
    (fs afp : ℚ) (hnd : (orders.map Order.id).Nodup)
    (hfind : orders.find? (fun x => decide (x.id = oid)) = some o)
    (hfilled : o.status = .FILLED) (hfs : 0 < fs) :
    (Live.poll_pass orders resp =
      (orders.map (fun x => (pollRefresh resp x).1),
       (orders.map (fun x => (pollRefresh resp x).2)).flatten)) ∧
    (∀ x, x.is_active = false → pollRefresh resp x = (x, [])) ∧
    (∀ pre x post, orders = pre ++ x :: post → x.is_active = false →
      Live.poll_pass orders resp =
        (pre.map (fun y => (pollRefresh resp y).1) ++
          x :: post.map (fun y => (pollRefresh resp y).1),
         (pre.map (fun y => (pollRefresh resp y).2)).flatten ++
          (post.map (fun y => (pollRefresh resp y).2)).flatten)) ∧
    ((Live.refresh_order_status orders oid (.dict "filled" fs afp)).2 =
      [⟨o.side, afp, fs⟩]) := by
  have hchar : Live.poll_pass orders resp =
      (orders.map (fun x => (pollRefresh resp x).1),
       (orders.map (fun x => (pollRefresh resp x).2)).flatten) := by
    have h := poll_go resp orders [] [] (by simpa using hnd)
    simpa [Live.poll_pass] using h
  refine ⟨hchar, fun x hx => pollRefresh_of_inactive resp x hx, ?_, ?_⟩
  · intro pre x post heq hx
    rw [hchar, heq]
    simp [pollRefresh_of_inactive resp x hx]
  · simp [Live.refresh_order_status, hfind, Live.refresh_one, Live.statusLookup,
      hfs]

/-- Witness for C3 at a mixed table: an active OPEN order alongside an
already-FILLED one, distinct ids. -/
theorem C3_fill_callback_once_witness :
    (([Order.mk "a" .YES 1 2 .OPEN 0 0,
        Order.mk "b" .NO 1 3 .FILLED 3 1].map Order.id).Nodup) ∧
    ([Order.mk "a" .YES 1 2 .OPEN 0 0,
        Order.mk "b" .NO 1 3 .FILLED 3 1].find? (fun x => decide (x.id = "b")) =
      some (Order.mk "b" .NO 1 3 .FILLED 3 1)) ∧
    (Order.mk "b" .NO 1 3 .FILLED 3 1).status = .FILLED ∧ (0 : ℚ) < 3 ∧
    (Live.poll_pass [Order.mk "a" .YES 1 2 .OPEN 0 0,
        Order.mk "b" .NO 1 3 .FILLED 3 1] (fun _ => .exc) =
      ([Order.mk "a" .YES 1 2 .OPEN 0 0,
          Order.mk "b" .NO 1 3 .FILLED 3 1].map
          (fun x => (pollRefresh (fun _ => .exc) x).1),
       ([Order.mk "a" .YES 1 2 .OPEN 0 0,
          Order.mk "b" .NO 1 3 .FILLED 3 1].map
          (fun x => (pollRefresh (fun _ => .exc) x).2)).flatten)) := by
  refine ⟨by decide, by decide, rfl, by decide, ?_⟩
  exact (C3_fill_callback_once
    [Order.mk "a" .YES 1 2 .OPEN 0 0, Order.mk "b" .NO 1 3 .FILLED 3 1]
    (fun _ => .exc) "b" (Order.mk "b" .NO 1 3 .FILLED 3 1) 3 1
    (by decide) (by decide) rfl (by decide)).1

/-! ## C6: cancel_all_orders -/

/-- The per-order effect of a cancel-all sweep: an active order becomes
CANCELLED, any other order is untouched. -/
def cancelActive (o : Order) : Order :=
  if o.is_active then { o with status := .CANCELLED } else o

theorem cancelActive_not_active (o : Order) : (cancelActive o).is_active = false := by
  unfold cancelActive
  by_cases h : o.is_active = true
  · rw [if_pos h]; rfl
  · rw [if_neg h]; exact Bool.eq_false_iff.mpr h

theorem cancelActive_idem (o : Order) : cancelActive (cancelActive o) = cancelActive o := by
  unfold cancelActive
  by_cases h : o.is_active = true
  · rw [if_pos h, if_neg]
    intro hc
    exact absurd hc (by simp [Order.is_active])
  · rw [if_neg h, if_neg h]

theorem cancelActive_id_map (o : Order) : (cancelActive o).id = o.id := by
  unfold cancelActive
  by_cases h : o.is_active = true
  · rw [if_pos h]
  · rw [if_neg h]

theorem sweep_go (apiOk : String → Bool) (todo : List Order) :
    ∀ (pre : List Order) (n : Nat),
    ((pre ++ todo).map Order.id).Nodup →
    (∀ o ∈ todo, o.is_active = true → apiOk o.id = true) →
    todo.foldl (Live.sweepStep apiOk) (pre ++ todo, n) =
      (pre ++ todo.map cancelActive, n + todo.countP (fun o => o.is_active)) := by
  induction todo with
  | nil => intro pre n _ _; simp
  | cons o rest ih =>
      intro pre n hnd hok
      have hnotin : o.id ∉ (pre ++ rest).map Order.id := by
        rw [List.map_append] at hnd ⊢
        rw [List.map_cons] at hnd
        intro hmem
        rcases List.mem_append.mp hmem with hmem | hmem
        · exact (List.disjoint_of_nodup_append hnd) hmem (by simp)
        · exact (List.nodup_cons.mp (List.nodup_append.mp hnd).2.1).1 hmem
      rw [List.foldl_cons]
      by_cases ha : o.is_active
      · have hok' : apiOk o.id = true := hok o (by simp) ha
        have hupd : (pre ++ o :: rest).map
            (fun x => if x.id = o.id then { x with status := OrderStatus.CANCELLED } else x) =
            pre ++ { o with status := OrderStatus.CANCELLED } :: rest := by
          rw [List.map_append, List.map_cons, if_pos rfl]
          have hpre : pre.map
              (fun x => if x.id = o.id then { x with status := OrderStatus.CANCELLED } else x) =
              pre := by
            rw [List.map_congr_left (g := id), List.map_id]
            intro x hx
            refine if_neg (fun heq => hnotin ?_)
            rw [List.map_append]
            exact List.mem_append_left _ (heq ▸ List.mem_map_of_mem Order.id hx)
          have hrest : rest.map
              (fun x => if x.id = o.id then { x with status := OrderStatus.CANCELLED } else x) =
              rest := by
            rw [List.map_congr_left (g := id), List.map_id]
            intro x hx
            refine if_neg (fun heq => hnotin ?_)
            rw [List.map_append]
            exact List.mem_append_right _ (heq ▸ List.mem_map_of_mem Order.id hx)
          rw [hpre, hrest]

        have hstep : Live.sweepStep apiOk (pre ++ o :: rest, n) o =
            (pre ++ { o with status := OrderStatus.CANCELLED } :: rest, n + 1) := by
          unfold Live.sweepStep Live.cancel_order
          simp only [ha, if_true, hok']
          rw [hupd]
        rw [hstep]
        have hnd' : (((pre ++ [{ o with status := OrderStatus.CANCELLED }]) ++ rest).map
            Order.id).Nodup := by
          have hids : ((pre ++ [{ o with status := OrderStatus.CANCELLED }]) ++ rest).map
              Order.id = (pre ++ o :: rest).map Order.id := by
            simp
          rw [hids]; exact hnd
        have hih := ih (pre ++ [{ o with status := OrderStatus.CANCELLED }]) (n + 1) hnd'
          (fun x hx hax => hok x (by simp [hx]) hax)
        have hpair : ((pre ++ [({ o with status := OrderStatus.CANCELLED } : Order)]) ++ rest,
            n + 1) = (pre ++ ({ o with status := OrderStatus.CANCELLED } : Order) :: rest,
            n + 1) := by simp
        rw [hpair] at hih
        rw [hih]
        refine Prod.ext ?_ ?_ <;>
          simp [cancelActive, ha, List.countP_cons] <;> omega
      · have hstep : Live.sweepStep apiOk (pre ++ o :: rest, n) o = (pre ++ o :: rest, n) := by
          unfold Live.sweepStep
          simp [ha]
        rw [hstep]
        have hnd' : (((pre ++ [o]) ++ rest).map Order.id).Nodup := by
          have hids : ((pre ++ [o]) ++ rest).map Order.id =
              (pre ++ o :: rest).map Order.id := by simp
          rw [hids]; exact hnd
        have hih := ih (pre ++ [o]) n hnd' (fun x hx hax => hok x (by simp [hx]) hax)
        have hpair : ((pre ++ [o]) ++ rest, n) = (pre ++ o :: rest, n) := by simp
        rw [hpair] at hih
        rw [hih]
        refine Prod.ext ?_ ?_ <;>
          simp [cancelActive, ha, List.countP_cons]

theorem live_cancel_all_char (apiOk : String → Bool) (orders : List Order)
    (hnd : (orders.map Order.id).Nodup)
    (hok : ∀ o ∈ orders, o.is_active = true → apiOk o.id = true) :
    Live.cancel_all_orders apiOk orders =
      (orders.map cancelActive, orders.countP (fun o => o.is_active)) := by
  have h := sweep_go apiOk orders [] 0 (by simpa) hok
  simpa [Live.cancel_all_orders] using h

theorem paper_cancel_all_char (orders : List Order) :
    Paper.cancel_all_orders orders =
      (orders.map cancelActive, orders.countP (fun o => o.is_active)) := by
  unfold Paper.cancel_all_orders cancelActive
  rw [← List.countP_eq_length_filter]

theorem countP_active_map_cancelActive (l : List Order) :
    (l.map cancelActive).countP (fun o => o.is_active) = 0 := by
  rw [List.countP_eq_zero]
  intro o ho
  rcases List.mem_map.mp ho with ⟨x, _, rfl⟩
  simp [cancelActive_not_active]

theorem map_cancelActive_of_no_active (l : List Order)
    (h : l.countP (fun o => o.is_active) = 0) : l.map cancelActive = l := by
  rw [List.map_congr_left (g := id), List.map_id]
  intro x hx
  have hnx := (List.countP_eq_zero.mp h) x hx
  simp only [Bool.not_eq_true] at hnx
  simp [cancelActive, hnx]

/-- C6: for an order table whose active orders number N (counted by
`countP is_active`), `cancel_all_orders` — in the paper engine, and in the
live engine provided order ids are distinct and the venue accepts each
cancel of an active order — turns exactly the active orders into CANCELLED
(every other order is untouched, expressed by the pointwise `cancelActive`
map), returns N, returns 0 when called again immediately afterwards, and
returns 0 leaving the table unchanged when there are no active orders. -/
theorem C6_cancel_all_orders (orders : List Order) (apiOk : String → Bool)
    (hnd : (orders.map Order.id).Nodup)
    (hok : ∀ o ∈ orders, o.is_active = true → apiOk o.id = true) :
    ((Paper.cancel_all_orders orders).2 = orders.countP (fun o => o.is_active) ∧
     (Paper.cancel_all_orders orders).1 = orders.map cancelActive ∧
     Paper.cancel_all_orders (Paper.cancel_all_orders orders).1 =
       ((Paper.cancel_all_orders orders).1, 0) ∧
     (orders.countP (fun o => o.is_active) = 0 →
       Paper.cancel_all_orders orders = (orders, 0))) ∧
    ((Live.cancel_all_orders apiOk orders).2 = orders.countP (fun o => o.is_active) ∧
     (Live.cancel_all_orders apiOk orders).1 = orders.map cancelActive ∧
     Live.cancel_all_orders apiOk (Live.cancel_all_orders apiOk orders).1 =
       ((Live.cancel_all_orders apiOk orders).1, 0) ∧
     (orders.countP (fun o => o.is_active) = 0 →
       Live.cancel_all_orders apiOk orders = (orders, 0))) := by
  have hmapidem : (orders.map cancelActive).map cancelActive = orders.map cancelActive := by
    rw [List.map_map]
    exact List.map_congr_left (fun x _ => by
      simp only [Function.comp]
      exact cancelActive_idem x)
  have hndm : ((orders.map cancelActive).map Order.id).Nodup := by
    rw [List.map_map]
    have hco : (Order.id ∘ cancelActive) = Order.id := funext cancelActive_id_map
    rw [hco]; exact hnd
  have hokm : ∀ o ∈ orders.map cancelActive, o.is_active = true → apiOk o.id = true := by
    intro o ho hact
    rcases List.mem_map.mp ho with ⟨x, _, rfl⟩
    rw [cancelActive_not_active x] at hact
    exact absurd hact (by simp)
  have hchar := paper_cancel_all_char orders
  have hlchar := live_cancel_all_char apiOk orders hnd hok
  constructor
  · refine ⟨by rw [hchar], by rw [hchar], ?_, ?_⟩
    · rw [hchar]
      rw [paper_cancel_all_char (orders.map cancelActive)]
      rw [hmapidem, countP_active_map_cancelActive]
    · intro hzero
      rw [hchar, map_cancelActive_of_no_active orders hzero, hzero]
  · refine ⟨by rw [hlchar], by rw [hlchar], ?_, ?_⟩
    · rw [hlchar]
      rw [live_cancel_all_char apiOk (orders.map cancelActive) hndm hokm]
      rw [hmapidem, countP_active_map_cancelActive]
    · intro hzero
      rw [hlchar, map_cancelActive_of_no_active orders hzero, hzero]

/-- Witness for C6: a concrete table with two active orders (OPEN and
PARTIALLY_FILLED) and one terminal FILLED order, distinct ids, and a venue
that accepts every cancel. -/
theorem C6_cancel_all_orders_witness :
    (([Order.mk "a" .YES 1 2 .OPEN 0 0, Order.mk "b" .NO 1 2 .FILLED 2 1,
        Order.mk "c" .YES 1 2 .PARTIALLY_FILLED 1 1].map Order.id).Nodup) ∧
    (∀ o ∈ [Order.mk "a" .YES 1 2 .OPEN 0 0, Order.mk "b" .NO 1 2 .FILLED 2 1,
        Order.mk "c" .YES 1 2 .PARTIALLY_FILLED 1 1],
      o.is_active = true → (fun _ => true) o.id = true) ∧
    ([Order.mk "a" .YES 1 2 .OPEN 0 0, Order.mk "b" .NO 1 2 .FILLED 2 1,
        Order.mk "c" .YES 1 2 .PARTIALLY_FILLED 1 1].countP
        (fun o => o.is_active) = 2) ∧
    ((Paper.cancel_all_orders [Order.mk "a" .YES 1 2 .OPEN 0 0,
        Order.mk "b" .NO 1 2 .FILLED 2 1,
        Order.mk "c" .YES 1 2 .PARTIALLY_FILLED 1 1]).2 =
      [Order.mk "a" .YES 1 2 .OPEN 0 0, Order.mk "b" .NO 1 2 .FILLED 2 1,
        Order.mk "c" .YES 1 2 .PARTIALLY_FILLED 1 1].countP (fun o => o.is_active)) := by
  refine ⟨by decide, by decide, by decide, ?_⟩
  exact (C6_cancel_all_orders [Order.mk "a" .YES 1 2 .OPEN 0 0,
    Order.mk "b" .NO 1 2 .FILLED 2 1, Order.mk "c" .YES 1 2 .PARTIALLY_FILLED 1 1]
    (fun _ => true) (by decide) (by decide)).1.1

end PolyBot
